import Mathlib

/-!
Verification development for the MDS-Backend repository.

This file gives a shallow embedding of `Document_Parser/src/main.rs`, the
document-ingestion pipeline: text extraction intake, title detection, date
extraction (numeric and Portuguese month-name formats), duplicate handling
against a persisted catalog, link resolution from the source filename, and
the per-run catalog save.  The other binaries of the repository (the HTTP
search front-end, the database loader, the scraper) are glue around external
services and are not modelled.

Conventions of the embedding:
* Rust `String`/`&str` values are Lean `String`s; scanning works on the
  underlying `List Char` (one element per Unicode scalar, as in Rust `chars()`).
* The two `fancy_regex` patterns of the source are embedded as hand-written
  leftmost-first backtracking scanners specialised to those patterns.
* `chrono` calendar facts (`NaiveDate::from_ymd_opt`, midnight-UTC
  `timestamp()`) are embedded with the standard civil-from-days conversion.
* `chrono::Local::now().year() % 100` is nondeterministic input; the
  functions take the current two-digit year as an explicit parameter.
* The `Sha256` hex fingerprint is an external library function and is taken
  as a parameter `hash : String → String` of the pipeline.
* Filesystem effects (reading `in/`, the `fs::rename` move to `old/`, the
  `entries.json` write) are modelled by explicit state: the text produced by
  `pdftotext` and the success of the rename are oracle fields of the input
  file description, and the save is the `Option` result of the run.
-/

/-- Numeric value of a run of ASCII digit characters, as produced by Rust
`str::parse` on a capture that the patterns guarantee to be all digits. -/
def digitsVal (l : List Char) : Nat :=
  l.foldl (fun a c => a * 10 + (c.toNat - '0'.toNat)) 0

/-- Embedding of Rust `str::to_lowercase` on one character, restricted to the
ASCII letters plus the accented Latin letters that occur in this repository's
Portuguese month names and keyword markers. -/
def rustLowerChar (c : Char) : Char :=
  if 'A' ≤ c && c ≤ 'Z' then Char.ofNat (c.toNat + 32)
  else if c = 'Á' then 'á' else if c = 'À' then 'à' else if c = 'Â' then 'â'
  else if c = 'Ã' then 'ã' else if c = 'Ç' then 'ç' else if c = 'É' then 'é'
  else if c = 'Ê' then 'ê' else if c = 'Í' then 'í' else if c = 'Ó' then 'ó'
  else if c = 'Ô' then 'ô' else if c = 'Õ' then 'õ' else if c = 'Ú' then 'ú'
  else c

/-- Split a character list at every occurrence of `sep`, keeping empty
segments, as Rust `str::split(sep)` does ("a__b" gives ["a","","b"],
"" gives [""]). -/
def splitCharList (sep : Char) : List Char → List (List Char)
  | [] => [[]]
  | c :: r =>
    if c = sep then [] :: splitCharList sep r
    else
      match splitCharList sep r with
      | h :: t => (c :: h) :: t
      | [] => [[c]]

/-- Remove one trailing carriage return, as Rust `str::lines` does on each
line. -/
def stripCR (l : List Char) : List Char :=
  if l.getLast? = some '\r' then l.dropLast else l

/-- Embedding of Rust `str::lines`: split on newline, with no trailing empty
line for a trailing newline, and a trailing carriage return stripped from
each line. -/
def rustLines (s : String) : List String :=
  let segs := splitCharList '\n' s.data
  let segs := if segs.getLast? = some [] then segs.dropLast else segs
  segs.map (fun l => String.mk (stripCR l))

/-- Whether `needle` is an initial segment of `hay`. -/
def charsStartWith : List Char → List Char → Bool
  | [], _ => true
  | _ :: _, [] => false
  | a :: as, b :: bs => a = b && charsStartWith as bs

/-- Whether `needle` occurs contiguously inside `hay`. -/
def charsContain (needle : List Char) : List Char → Bool
  | [] => needle.isEmpty
  | c :: rest => charsStartWith needle (c :: rest) || charsContain needle rest

/-- Embedding of Rust `str::contains(keyword)`: substring containment. -/
def strContains (line kw : String) : Bool :=
  charsContain kw.data line.data

/-- `return_title` (main.rs lines 49-58): the first line of the formatted
text that contains any of the keywords, if any. -/
def return_title (formatted_text : String) (keywords : List String) : Option String :=
  (rustLines formatted_text).find? fun line => keywords.any fun kw => strContains line kw

/-! ## chrono calendar model

`NaiveDate::from_ymd_opt` validity and the midnight-UTC `timestamp()` of a
calendar date, via the standard civil-from-days conversion. -/

/-- Proleptic Gregorian leap-year predicate. -/
def isLeap (y : Int) : Bool :=
  (y.emod 4 = 0 && y.emod 100 ≠ 0) || y.emod 400 = 0

/-- Number of days of month `m` (1-12) of year `y`; 0 for an invalid month
number. -/
def daysInMonth (y : Int) (m : Nat) : Nat :=
  match m with
  | 1 => 31 | 2 => if isLeap y then 29 else 28 | 3 => 31 | 4 => 30
  | 5 => 31 | 6 => 30 | 7 => 31 | 8 => 31
  | 9 => 30 | 10 => 31 | 11 => 30 | 12 => 31
  | _ => 0

/-- Validity test of `NaiveDate::from_ymd_opt(y, m, d)`. -/
def fromYmdValid (y : Int) (m d : Nat) : Bool :=
  1 ≤ m && m ≤ 12 && 1 ≤ d && d ≤ daysInMonth y m

/-- Days between 1970-01-01 and the civil date `y-m-d` (Howard Hinnant's
civil-from-days algorithm, with floor division so that it is correct for
every year). -/
def daysFromCivil (y : Int) (m d : Nat) : Int :=
  let yAdj : Int := if m ≤ 2 then y - 1 else y
  let era : Int := Int.fdiv yAdj 400
  let yoe : Nat := (yAdj - era * 400).toNat
  let mp : Nat := if 2 < m then m - 3 else m + 9
  let doy : Nat := (153 * mp + 2) / 5 + (d - 1)
  let doe : Nat := yoe * 365 + yoe / 4 - yoe / 100 + doy
  era * 146097 + (doe : Int) - 719468

/-- Seconds since the epoch of midnight UTC on the civil date `y-m-d`:
`NaiveDate::from_ymd_opt(..).and_hms_opt(0,0,0).timestamp()`. -/
def naiveDateTimestamp (y : Int) (m d : Nat) : Option Int :=
  if fromYmdValid y m d then some (daysFromCivil y m d * 86400) else none

/-! ## Scanners for the two source regular expressions

Pattern 1 (main.rs line 115): digits{1,2}, ws*, "de", ws*, one or more
characters that are neither digits nor whitespace, ws*, "de", ws*,
digits{2,4}.
Pattern 2 (main.rs line 155): digits{1,2} "/" digits{1,2} "/" digits{2,4}.
Both are searched unanchored, leftmost match first; quantifiers are greedy
with backtracking, exactly as the backtracking `fancy_regex` engine explores
them.  The digit and whitespace classes are used here in their ASCII
restriction, which covers the document alphabet. -/

/-- Greedy-first candidates for a one-or-two digit group: the two-digit split
first when available, then the one-digit split. -/
def takeDigits12 (s : List Char) : List (List Char × List Char) :=
  match s with
  | c1 :: c2 :: rest =>
    if c1.isDigit && c2.isDigit then [([c1, c2], rest), ([c1], c2 :: rest)]
    else if c1.isDigit then [([c1], c2 :: rest)] else []
  | [c1] => if c1.isDigit then [([c1], [])] else []
  | [] => []

/-- Match the literal characters "de". -/
def matchDe : List Char → Option (List Char)
  | 'd' :: 'e' :: rest => some rest
  | _ => none

/-- Match the literal character "/". -/
def matchSlash : List Char → Option (List Char)
  | '/' :: rest => some rest
  | _ => none

/-- Tail of pattern 1 after the month group: ws*, "de", ws*, digits{2,4}
(greedy, so up to four digits of the digit run, at least two). -/
def ptYearPart (r : List Char) : Option (List Char) :=
  match matchDe (r.dropWhile Char.isWhitespace) with
  | none => none
  | some r2 =>
    let yearRun := (r2.dropWhile Char.isWhitespace).takeWhile Char.isDigit
    if 2 ≤ yearRun.length then some (yearRun.take 4) else none

/-- Backtracking over the month group length, longest first, as the greedy
one-or-more class backtracks. -/
def ptMonthBT (dayS : List Char) (n : Nat) (monthRun r3 : List Char) :
    Option (List Char × List Char × List Char) :=
  match n with
  | 0 => none
  | k + 1 =>
    match ptYearPart (r3.drop (k + 1)) with
    | some yearS => some (dayS, monthRun.take (k + 1), yearS)
    | none => ptMonthBT dayS k monthRun r3

/-- Tail of pattern 1 after the day group: ws*, "de", ws*, then the month
group and the year part. -/
def ptTail (dayS : List Char) (afterDay : List Char) :
    Option (List Char × List Char × List Char) :=
  match matchDe (afterDay.dropWhile Char.isWhitespace) with
  | none => none
  | some r2 =>
    let r3 := r2.dropWhile Char.isWhitespace
    let monthRun := r3.takeWhile fun c => !c.isDigit && !c.isWhitespace
    ptMonthBT dayS monthRun.length monthRun r3

/-- Attempt pattern 1 at one start position. -/
def ptMatchAt (s : List Char) : Option (List Char × List Char × List Char) :=
  (takeDigits12 s).findSome? fun p => ptTail p.1 p.2

/-- Leftmost match of pattern 1: try every start position left to right. -/
def ptFind : List Char → Option (List Char × List Char × List Char)
  | [] => none
  | c :: rest =>
    match ptMatchAt (c :: rest) with
    | some r => some r
    | none => ptFind rest

/-- Attempt pattern 2 at one start position. -/
def numMatchAt (s : List Char) : Option (List Char × List Char × List Char) :=
  (takeDigits12 s).findSome? fun p =>
    (matchSlash p.2).bind fun r2 =>
    (takeDigits12 r2).findSome? fun q =>
    (matchSlash q.2).bind fun r4 =>
      let yearRun := r4.takeWhile Char.isDigit
      if 2 ≤ yearRun.length then some (p.1, q.1, yearRun.take 4) else none

/-- Leftmost match of pattern 2. -/
def numFind : List Char → Option (List Char × List Char × List Char)
  | [] => none
  | c :: rest =>
    match numMatchAt (c :: rest) with
    | some r => some r
    | none => numFind rest

/-! ## Date extraction (main.rs lines 99-184) -/

/-- The fixed ordered Portuguese month-name list (main.rs lines 101-112). -/
def monthNames : List String :=
  ["janeiro", "fevereiro", "março", "abril", "maio", "junho",
   "julho", "agosto", "setembro", "outubro", "novembro", "dezembro"]

/-- Two-digit year resolution (main.rs lines 131-141 and 164-174, identical
code in both extractors): `currentYY` is the current year's last two digits. -/
def resolveTwoDigitYear (currentYY : Int) (y : Int) : Int :=
  if y ≤ currentYY then 2000 + y else 1900 + y

/-- `extract_portuguese_date` (main.rs lines 99-152).  Note the faithful
embedding of line 124-127: the month is the 0-based position of the matched
name in the list, passed directly to `from_ymd_opt`. -/
def extract_portuguese_date (currentYY : Int) (line : String) : Option Int :=
  match ptFind line.data with
  | none => none
  | some (dayS, monthS, yearS) =>
    let day := digitsVal dayS
    let monthStr := monthS.map rustLowerChar
    match monthNames.findIdx? (fun m => m.data.map rustLowerChar == monthStr) with
    | none => none
    | some idx =>
      let month := idx
      let year : Int :=
        if yearS.length = 2 then resolveTwoDigitYear currentYY (digitsVal yearS)
        else (digitsVal yearS : Int)
      naiveDateTimestamp year month day

/-- `extract_date` (main.rs lines 154-184): the numeric day/month/year
format. -/
def extract_date (currentYY : Int) (line : String) : Option Int :=
  match numFind line.data with
  | none => none
  | some (dayS, monthS, yearS) =>
    let day := digitsVal dayS
    let month := digitsVal monthS
    let year : Int :=
      if yearS.length = 2 then resolveTwoDigitYear currentYY (digitsVal yearS)
      else (digitsVal yearS : Int)
    naiveDateTimestamp year month day

/-- `return_date` (main.rs lines 60-72): the Portuguese format tried on the
whole text first, then the numeric format line by line. -/
def return_date (currentYY : Int) (formatted_text : String) : Option Int :=
  match extract_portuguese_date currentYY formatted_text with
  | some date => some date
  | none => (rustLines formatted_text).findSome? fun line => extract_date currentYY line

/-! ## Record building and the intake loop (main.rs lines 12-24, 75-97,
186-203, 220-317) -/

/-- The `Entry` struct (main.rs lines 12-19). -/
structure Entry where
  id : String
  title : Option String
  date : Option Int
  content : String
  link : String
deriving DecidableEq

/-- One file of the intake directory, already filtered to regular files with
the pdf extension (main.rs line 245).  `stem` is `file_stem` converted to a
string, `name` is `file_name`; `extracted` is the oracle for the external
`pdftotext` invocation (`some text` on success, `none` on non-zero exit or
spawn failure, main.rs lines 205-218); `moveOk` is the oracle for the
`fs::rename` into the archive directory. -/
structure PdfFile where
  stem : Option String
  name : String
  extracted : Option String
  moveOk : Bool
deriving DecidableEq

/-- The in-memory state of one run: the entries vector, the
`existing_titles` set (modelled as the list of inserted titles, membership
checked with `contains`), and the names of the files renamed into the
archive directory so far. -/
structure RunState where
  entries : List Entry
  titles : List String
  moved : List String
deriving DecidableEq

/-- `HashSet::insert` on the known-titles set. -/
def insertTitle (t : String) (ts : List String) : List String := t :: ts

/-- The reporting outcome of one loop iteration, one constructor per
print site of the loop body (main.rs lines 252-301): an accepted record
(with the success of the archive move), the link-resolution error, the
duplicate warning, and the no-title report. -/
inductive Outcome where
  | accepted (moveOk : Bool)
  | linkError
  | duplicate
  | noTitle
deriving DecidableEq

/-- `return_parameters` (main.rs lines 75-97).  The source wraps the tuple
in an always-`Ok` `Result` (the `Err` arm of the caller's match is dead
code); the embedding returns the tuple directly:
(result title, content text, result date, duplicate flag). -/
def return_parameters (currentYY : Int) (text : String) (keywords : List String)
    (existing_titles : List String) : Option String × String × Option Int × Bool :=
  let found_title := return_title text keywords
  let found_date := return_date currentYY text
  match found_title with
  | some title =>
    if existing_titles.contains title then (none, text, none, true)
    else (some title, text, found_date, false)
  | none => (none, text, found_date, false)

/-- `get_link` (main.rs lines 186-203): split the file stem on underscores;
exactly two parts build the download reference, anything else is an error. -/
def get_link (stem : Option String) : Except String String :=
  match Option.map (fun stemStr =>
    match (splitCharList '_' stemStr.data).map (fun l => String.mk l) with
    | [id, key] =>
      Except.ok ("https://sig.unb.br/sigrh/downloadArquivo?idArquivo=" ++ id ++ "&key=" ++ key)
    | _ => (Except.error "Invalid filename format or path" : Except String String)) stem with
  | some r => r
  | none => Except.error "Invalid filename format or path"

/-- The keyword markers passed by `main` (main.rs line 249). -/
def mainKeywords : List String :=
  ["RESOLUÇÃO", "Cronograma", "Calendário", "Calendario"]

/-- The body of the intake loop for one file whose text extraction succeeded
(main.rs lines 247-306): detect title and date, dedup, on a fresh title
insert it into the known-titles set, resolve the link (skipping the entry on
failure), push the entry and move the file. -/
def processFile (hash : String → String) (currentYY : Int) (keywords : List String)
    (st : RunState) (f : PdfFile) (text : String) : RunState × Outcome :=
  match return_parameters currentYY text keywords st.titles with
  | (some title, content, date, _) =>
    let titles' := insertTitle title st.titles
    match get_link f.stem with
    | Except.error _ => ({ st with titles := titles' }, Outcome.linkError)
    | Except.ok link =>
      let entry : Entry :=
        { id := hash title, title := some title, date := date, content := content, link := link }
      ({ st with
          titles := titles'
          entries := st.entries ++ [entry]
          moved := if f.moveOk then st.moved ++ [f.name] else st.moved },
        Outcome.accepted f.moveOk)
  | (none, _, _, is_duplicate) =>
    (st, if is_duplicate then Outcome.duplicate else Outcome.noTitle)

/-- Loading of `entries.json` (main.rs lines 229-240): every stored entry is
pushed, and every present title is inserted into the known-titles set. -/
def loadFold : List Entry → RunState → RunState
  | [], st => st
  | e :: rest, st =>
    loadFold rest
      { st with
          titles := match e.title with
            | some t => insertTitle t st.titles
            | none => st.titles
          entries := st.entries ++ [e] }

/-- The run state after the catalog load (the empty state when no
`entries.json` exists). -/
def load (stored : List Entry) : RunState :=
  loadFold stored { entries := [], titles := [], moved := [] }

/-- The intake loop (main.rs lines 242-308).  The `?` on `extract_text`
(line 246) propagates an extraction failure out of `main`: the loop stops at
the failing file, the state reached so far is frozen (its file moves already
happened), and the Boolean records whether the end of the loop was reached. -/
def runAux (hash : String → String) (currentYY : Int) (keywords : List String) :
    List PdfFile → RunState → RunState × Bool
  | [], st => (st, true)
  | f :: fs, st =>
    match f.extracted with
    | none => (st, false)
    | some text => runAux hash currentYY keywords fs (processFile hash currentYY keywords st f text).1

/-- One whole run of `main` after folder setup: load the stored catalog,
process the intake files, and, only when the loop completed, rewrite
`entries.json` with the final entries (main.rs lines 310-316).  The second
component is `none` exactly when the run aborted before the save. -/
def mainRun (hash : String → String) (currentYY : Int) (keywords : List String)
    (stored : List Entry) (files : List PdfFile) : RunState × Option (List Entry) :=
  match runAux hash currentYY keywords files (load stored) with
  | (st, true) => (st, some st.entries)
  | (st, false) => (st, none)

/-! ## Spec-side definitions

The following definitions are written from the specification's words, not
from the source; they state the properties the claims compare the code
against. -/

/-- Whether two entries carry the same non-empty title. -/
def sameNonemptyTitle (a b : Entry) : Bool :=
  match a.title, b.title with
  | some t, some u => t == u && !(t == "")
  | _, _ => false

/-- The dedup invariant of the specification: no two records of the catalog
carry equal non-empty titles. -/
def titlesDistinct (es : List Entry) : Prop :=
  es.Pairwise fun a b => sameNonemptyTitle a b = false

/-- The known-titles set covers every title present in the catalog. -/
def TitlesSup (st : RunState) : Prop :=
  ∀ e ∈ st.entries, ∀ t, e.title = some t → t ∈ st.titles

/-- Split at the first occurrence of the underscore, when there is one
(spec wording for the link-resolution filename contract). -/
def splitFirstAux : List Char → Option (List Char × List Char)
  | [] => none
  | c :: r =>
    if c = '_' then some ([], r)
    else (splitFirstAux r).map fun p => (c :: p.1, p.2)

/-- Whether the file stem, split on the first underscore, yields exactly the
two parts of the filename contract. -/
def stemSplitsInTwo (stem : Option String) : Bool :=
  match stem with
  | none => false
  | some s => (splitFirstAux s.data).isSome

/-- Modelled from the spec (section 4.1, Text Normalizer — this component
has no counterpart in the source): first pass over one line, removing a
whitespace character when both of its neighbours are non-whitespace. -/
def collapseGlyphGaps : List Char → List Char
  | a :: b :: c :: rest =>
    if !a.isWhitespace && b.isWhitespace && !c.isWhitespace then
      a :: collapseGlyphGaps (c :: rest)
    else a :: collapseGlyphGaps (b :: c :: rest)
  | l => l

/-- Modelled from the spec (section 4.1): second pass, collapsing every run
of two or more whitespace characters into a single space; fuelled by the
length of the list so the recursion is structural. -/
def collapseRunsAux : Nat → List Char → List Char
  | 0, l => l
  | _ + 1, [] => []
  | _ + 1, [c] => [c]
  | fuel + 1, c :: d :: rest =>
    if c.isWhitespace && d.isWhitespace then collapseRunsAux fuel (' ' :: rest)
    else c :: collapseRunsAux fuel (d :: rest)

/-- Modelled from the spec (section 4.1): collapse whitespace runs of a
line. -/
def collapseRuns (l : List Char) : List Char :=
  collapseRunsAux l.length l

/-- Modelled from the spec (section 4.1, Text Normalizer — absent from the
source): per line, remove single whitespace characters sitting strictly
between two non-whitespace characters, then collapse whitespace runs;
rejoin the lines with newline separators. -/
def specNormalize (text : String) : String :=
  String.intercalate "\n"
    ((rustLines text).map fun line => String.mk (collapseRuns (collapseGlyphGaps line.data)))

/-! ## Concrete inputs used by witnesses and counterexamples -/

/-- An intake file matching the end-to-end scenario: well-formed stem, a
keyword line and a numeric date line, successful extraction and move. -/
def goodFile : PdfFile :=
  { stem := some "123_abcKEY", name := "123_abcKEY.pdf",
    extracted := some "RESOLUÇÃO 48\n12/01/2023\n", moveOk := true }

/-- An intake file whose stem has no underscore but whose text carries a
keyword line. -/
def badStemFile : PdfFile :=
  { stem := some "nodelimiter", name := "nodelimiter.pdf",
    extracted := some "RESOLUÇÃO 48\n", moveOk := true }

/-- An intake file whose text has no keyword line. -/
def noTitleFile : PdfFile :=
  { stem := some "77_zz", name := "77_zz.pdf",
    extracted := some "hello world\n1/1/23\n", moveOk := true }

/-- An intake file whose stem has no underscore and whose text has no
keyword line. -/
def badStemNoTitleFile : PdfFile :=
  { stem := some "nodelimiter", name := "nodelimiter.pdf",
    extracted := some "hello world\n", moveOk := true }

/-- An intake file whose external text extraction fails. -/
def failFile : PdfFile :=
  { stem := some "9_yy", name := "9_yy.pdf", extracted := none, moveOk := true }

/-- A catalog entry whose title collides with the title detected in
`goodFile`'s text. -/
def dupEntry : Entry :=
  { id := "deadbeef", title := some "RESOLUÇÃO 48", date := none,
    content := "earlier content", link := "https://example.org/earlier" }

/-! ## Helper lemmas -/

theorem rp_title_none {currentYY : Int} {text : String} {keywords : List String}
    (ex : List String) (h : return_title text keywords = none) :
    return_parameters currentYY text keywords ex =
      (none, text, return_date currentYY text, false) := by
  simp [return_parameters, h]

theorem rp_title_dup {currentYY : Int} {text : String} {keywords : List String}
    {ex : List String} {t : String} (h : return_title text keywords = some t)
    (hc : ex.contains t = true) :
    return_parameters currentYY text keywords ex = (none, text, none, true) := by
  simp [return_parameters, h, show t ∈ ex from by simpa using hc]

theorem rp_title_fresh {currentYY : Int} {text : String} {keywords : List String}
    {ex : List String} {t : String} (h : return_title text keywords = some t)
    (hc : ex.contains t = false) :
    return_parameters currentYY text keywords ex =
      (some t, text, return_date currentYY text, false) := by
  simp [return_parameters, h, show t ∉ ex from by simpa using hc]

theorem processFile_title_none {hash : String → String} {currentYY : Int}
    {keywords : List String} {st : RunState} {f : PdfFile} {text : String}
    (h : return_title text keywords = none) :
    processFile hash currentYY keywords st f text = (st, Outcome.noTitle) := by
  simp [processFile, rp_title_none st.titles h]

theorem processFile_title_dup {hash : String → String} {currentYY : Int}
    {keywords : List String} {st : RunState} {f : PdfFile} {text : String} {t : String}
    (h : return_title text keywords = some t) (hc : st.titles.contains t = true) :
    processFile hash currentYY keywords st f text = (st, Outcome.duplicate) := by
  simp [processFile, rp_title_dup h hc]

theorem processFile_fresh_err {hash : String → String} {currentYY : Int}
    {keywords : List String} {st : RunState} {f : PdfFile} {text : String} {t msg : String}
    (h : return_title text keywords = some t) (hc : st.titles.contains t = false)
    (hl : get_link f.stem = Except.error msg) :
    processFile hash currentYY keywords st f text =
      ({ st with titles := insertTitle t st.titles }, Outcome.linkError) := by
  simp [processFile, rp_title_fresh h hc, hl]

theorem processFile_fresh_ok {hash : String → String} {currentYY : Int}
    {keywords : List String} {st : RunState} {f : PdfFile} {text : String} {t link : String}
    (h : return_title text keywords = some t) (hc : st.titles.contains t = false)
    (hl : get_link f.stem = Except.ok link) :
    processFile hash currentYY keywords st f text =
      ({ st with
          titles := insertTitle t st.titles
          entries := st.entries ++
            [{ id := hash t, title := some t, date := return_date currentYY text,
               content := text, link := link }]
          moved := if f.moveOk then st.moved ++ [f.name] else st.moved },
        Outcome.accepted f.moveOk) := by
  simp [processFile, rp_title_fresh h hc, hl]

/-! ## Claim C1 (corrected) -/

/-- C1, counterexample.  The claim states that a per-file extraction failure
is reported, the file is left in place and the pipeline continues to the
next file, never aborting the batch.  On the code the `?` on `extract_text`
(main.rs line 246) aborts the whole run: with a failing file first in the
intake directory, an acceptable second file contributes no entry and the
catalog is never saved, although the same second file alone yields one
saved entry. -/
theorem c1_extraction_failure_counterexample :
    (mainRun (fun s => s) 24 mainKeywords [] [failFile, goodFile]).1.entries = [] ∧
    (mainRun (fun s => s) 24 mainKeywords [] [failFile, goodFile]).2 = none ∧
    (mainRun (fun s => s) 24 mainKeywords [] [goodFile]).1.entries.length = 1 ∧
    (mainRun (fun s => s) 24 mainKeywords [] [goodFile]).2 ≠ none := by
  refine ⟨by decide, by decide, by decide, by decide⟩

/-- C1, amended: when the text extraction of a file fails, the file is left
in place (no state change at all for that file), but the error propagates
out of the loop: the remaining files are not processed and the run does not
reach the catalog save. -/
theorem c1_extraction_failure_aborts (hash : String → String) (currentYY : Int)
    (keywords : List String) (st : RunState) (f : PdfFile) (fs : List PdfFile)
    (h : f.extracted = none) :
    runAux hash currentYY keywords (f :: fs) st = (st, false) := by
  simp [runAux, h]

/-- C1, witness for the amended theorem. -/
theorem c1_extraction_failure_aborts_witness :
    runAux (fun s => s) 24 mainKeywords [failFile, goodFile] (load []) = (load [], false) :=
  c1_extraction_failure_aborts (fun s => s) 24 mainKeywords (load []) failFile [goodFile] rfl

/-! ## Claim C2 (code bug) -/

/-- C2.  The claim gives the date round-trip: with current year 2024,
"15 de março de 24" should yield the midnight UTC timestamp of 2024-03-15
(1710460800) and "15/03/24" the same.  The numeric half holds, but the
Portuguese extractor passes the 0-based list position of the month name
straight to `from_ymd_opt` (main.rs lines 124-129), so "março" (position 2)
is read as February and the text yields the timestamp of 2024-02-15
instead; "janeiro" (position 0) can never yield a date at all. -/
theorem c2_month_index_bug :
    return_date 24 "15 de março de 24" = some 1707955200 ∧
    naiveDateTimestamp 2024 2 15 = some 1707955200 ∧
    naiveDateTimestamp 2024 3 15 = some 1710460800 ∧
    (1707955200 : Int) ≠ 1710460800 ∧
    return_date 24 "15/03/24" = some 1710460800 ∧
    return_date 24 "15 de janeiro de 24" = none := by
  refine ⟨by decide, by decide, by decide, by decide, by decide, by decide⟩

/-! ## Claim C4 (confirmed) -/

/-- C4: a processed file whose detected title is already in the known-titles
set changes nothing: the state (entries, known titles, moved files) is
returned untouched and the only effect is the reported duplicate
condition — no entry is appended, no identifier assigned, no file moved. -/
theorem c4_duplicate_frame (hash : String → String) (currentYY : Int)
    (keywords : List String) (st : RunState) (f : PdfFile) (text : String) (t : String)
    (ht : return_title text keywords = some t)
    (hd : st.titles.contains t = true) :
    processFile hash currentYY keywords st f text = (st, Outcome.duplicate) :=
  processFile_title_dup ht hd

/-- C4, witness: a second file carrying the title already in the catalog is
reported duplicate and the state is unchanged. -/
theorem c4_duplicate_frame_witness :
    processFile (fun s => s) 24 mainKeywords (load [dupEntry]) goodFile
        "RESOLUÇÃO 48\n12/01/2023\n" = (load [dupEntry], Outcome.duplicate) :=
  c4_duplicate_frame (fun s => s) 24 mainKeywords (load [dupEntry]) goodFile
    "RESOLUÇÃO 48\n12/01/2023\n" "RESOLUÇÃO 48" (by decide) (by decide)

/-! ## Claim C9 (corrected) -/

/-- C9, counterexample.  The claim states that a document with no detected
title is accepted into the catalog as a content-only record.  On the code
the push into the entries vector happens only inside the title branch
(main.rs lines 253-287): a no-title document leaves the catalog empty, and
the completed run saves an empty catalog. -/
theorem c9_content_only_counterexample :
    (mainRun (fun s => s) 24 mainKeywords [] [noTitleFile]).1.entries = [] ∧
    (mainRun (fun s => s) 24 mainKeywords [] [noTitleFile]).2 = some [] := by
  refine ⟨by decide, by decide⟩

/-- C9, amended: a processed document with no detected title changes nothing
at all — no record (content-only or otherwise) is appended, no title
inserted, no file moved — it is never flagged duplicate, and the outcome is
the no-title report. -/
theorem c9_no_title_frame (hash : String → String) (currentYY : Int)
    (keywords : List String) (st : RunState) (f : PdfFile) (text : String)
    (h : return_title text keywords = none) :
    processFile hash currentYY keywords st f text = (st, Outcome.noTitle) :=
  processFile_title_none h

/-- C9, witness for the amended theorem. -/
theorem c9_no_title_frame_witness :
    processFile (fun s => s) 24 mainKeywords (load []) noTitleFile "hello world\n1/1/23\n"
      = (load [], Outcome.noTitle) :=
  c9_no_title_frame (fun s => s) 24 mainKeywords (load []) noTitleFile
    "hello world\n1/1/23\n" (by decide)

/-! ## Claim C5 (corrected) -/

/-- A glyph-spaced line as produced by character-by-character PDF
extraction. -/
def glyphText : String := "R E S O L U Ç Ã O  4 8"

/-- C5, counterexample.  The claim states that the text scanned for titles
and dates and stored as the record content is the normalized text (glyph
gaps removed, whitespace runs collapsed).  The source has no normalizer:
`return_parameters` (main.rs line 96) stores the extracted text verbatim
and the detectors scan that raw text, so a glyph-spaced keyword line is
stored as-is and its keyword is not even detected, while the title would be
found in the text the claim describes. -/
theorem c5_no_normalization_counterexample :
    (return_parameters 24 glyphText mainKeywords []).2.1 = glyphText ∧
    specNormalize glyphText = "RESOLUÇÃO 48" ∧
    glyphText ≠ "RESOLUÇÃO 48" ∧
    return_title glyphText mainKeywords = none ∧
    return_title (specNormalize glyphText) mainKeywords = some "RESOLUÇÃO 48" := by
  refine ⟨by decide, by decide, by decide, by decide, by decide⟩

/-- C5, amended: the text scanned for titles and dates and stored as the
record's content field is the raw extracted text, completely unnormalized —
the content component of `return_parameters` is the input text itself, and
any detected title is literally one of the raw text's lines. -/
theorem c5_raw_text_scanned_and_stored (currentYY : Int) (text : String)
    (keywords : List String) (ex : List String) :
    (return_parameters currentYY text keywords ex).2.1 = text ∧
    (∀ t, return_title text keywords = some t → t ∈ rustLines text) := by
  constructor
  · rcases h : return_title text keywords with _ | t
    · rw [rp_title_none ex h]
    · rcases hc : ex.contains t with _ | _
      · rw [rp_title_fresh h hc]
      · rw [rp_title_dup h hc]
  · intro t ht
    simp only [return_title] at ht
    exact List.mem_of_find?_eq_some ht

/-- C5, witness for the amended theorem. -/
theorem c5_raw_text_witness :
    (return_parameters 24 "RESOLUÇÃO 48\nbody" mainKeywords []).2.1 = "RESOLUÇÃO 48\nbody" ∧
    "RESOLUÇÃO 48" ∈ rustLines "RESOLUÇÃO 48\nbody" :=
  ⟨(c5_raw_text_scanned_and_stored 24 "RESOLUÇÃO 48\nbody" mainKeywords []).1,
   (c5_raw_text_scanned_and_stored 24 "RESOLUÇÃO 48\nbody" mainKeywords []).2
     "RESOLUÇÃO 48" (by decide)⟩

/-! ## Claim C8 (confirmed) -/

/-- C8: the two-digit year resolution rule shared by both date formats
(main.rs lines 131-141 and 164-174): with `c` the current year's last two
digits, a parsed two-digit year `y ≤ c` resolves to `2000 + y` and any
other to `1900 + y`; through either extractor, with current year 2024 the
year "23" resolves to 2023 and the year "99" to 1999. -/
theorem c8_two_digit_year_rule (c y : Int) :
    (y ≤ c → resolveTwoDigitYear c y = 2000 + y) ∧
    (c < y → resolveTwoDigitYear c y = 1900 + y) ∧
    extract_date 24 "1/1/23" = naiveDateTimestamp 2023 1 1 ∧
    extract_date 24 "1/1/99" = naiveDateTimestamp 1999 1 1 ∧
    extract_portuguese_date 24 "5 de fevereiro de 23" = naiveDateTimestamp 2023 1 5 ∧
    extract_portuguese_date 24 "5 de fevereiro de 99" = naiveDateTimestamp 1999 1 5 := by
  refine ⟨?_, ?_, by decide, by decide, by decide, by decide⟩
  · intro h; simp [resolveTwoDigitYear, h]
  · intro h; simp [resolveTwoDigitYear, not_le.mpr h]

/-- C8, witness: year "23" observed in 2024 resolves to 2023 and year "99"
to 1999. -/
theorem c8_two_digit_year_rule_witness :
    resolveTwoDigitYear 24 23 = 2023 ∧ resolveTwoDigitYear 24 99 = 1999 :=
  ⟨((c8_two_digit_year_rule 24 23).1 (by decide)).trans (by decide),
   ((c8_two_digit_year_rule 24 99).2.1 (by decide)).trans (by decide)⟩

/-! ## Invariant lemmas for the run states -/

theorem loadFold_spec (l : List Entry) (st : RunState) :
    (loadFold l st).entries = st.entries ++ l ∧
    (∀ t, t ∈ st.titles → t ∈ (loadFold l st).titles) ∧
    (∀ e ∈ l, ∀ t, e.title = some t → t ∈ (loadFold l st).titles) := by
  induction l generalizing st with
  | nil => simp [loadFold]
  | cons e rest ih =>
    rcases ih { st with
        titles := match e.title with
          | some t => insertTitle t st.titles
          | none => st.titles
        entries := st.entries ++ [e] } with ⟨h1, h2, h3⟩
    refine ⟨by simpa [loadFold] using h1, ?_, ?_⟩
    · intro t htl
      simp only [loadFold]
      apply h2
      rcases e.title with _ | u
      · exact htl
      · exact List.mem_cons_of_mem _ htl
    · intro e' he' t ht
      simp only [loadFold]
      rcases List.mem_cons.mp he' with rfl | hmem
      · apply h2
        rw [ht]
        exact List.mem_cons_self _ _
      · exact h3 e' hmem t ht

theorem load_entries (stored : List Entry) : (load stored).entries = stored := by
  simpa [load] using (loadFold_spec stored { entries := [], titles := [], moved := [] }).1

theorem load_titlesSup (stored : List Entry) : TitlesSup (load stored) := by
  intro e he t ht
  exact (loadFold_spec stored { entries := [], titles := [], moved := [] }).2.2 e
    (by rwa [load_entries] at he) t ht

theorem processFile_titlesSup {hash : String → String} {currentYY : Int}
    {keywords : List String} {st : RunState} {f : PdfFile} {text : String}
    (hsup : TitlesSup st) :
    TitlesSup (processFile hash currentYY keywords st f text).1 := by
  rcases ht : return_title text keywords with _ | t
  · rw [processFile_title_none ht]; exact hsup
  · rcases hc : st.titles.contains t with _ | _
    · cases hl : get_link f.stem with
      | error msg =>
        rw [processFile_fresh_err ht hc hl]
        intro e he u hu
        exact List.mem_cons_of_mem _ (hsup e he u hu)
      | ok link =>
        rw [processFile_fresh_ok ht hc hl]
        intro e he u hu
        rcases List.mem_append.mp he with h1 | h2
        · exact List.mem_cons_of_mem _ (hsup e h1 u hu)
        · have he2 : e = ⟨hash t, some t, return_date currentYY text, text, link⟩ := by
            simpa using h2
          subst he2
          have hut : u = t := by simpa using hu.symm
          subst hut
          exact List.mem_cons_self _ _
    · rw [processFile_title_dup ht hc]; exact hsup

theorem processFile_titlesDistinct {hash : String → String} {currentYY : Int}
    {keywords : List String} {st : RunState} {f : PdfFile} {text : String}
    (hsup : TitlesSup st) (hdis : titlesDistinct st.entries) :
    titlesDistinct (processFile hash currentYY keywords st f text).1.entries := by
  rcases ht : return_title text keywords with _ | t
  · rw [processFile_title_none ht]; exact hdis
  · rcases hc : st.titles.contains t with _ | _
    · cases hl : get_link f.stem with
      | error msg =>
        rw [processFile_fresh_err ht hc hl]; exact hdis
      | ok link =>
        rw [processFile_fresh_ok ht hc hl]
        unfold titlesDistinct at hdis ⊢
        rw [List.pairwise_append]
        refine ⟨hdis, by simp, ?_⟩
        intro a ha b hb
        have hb' : b = ⟨hash t, some t, return_date currentYY text, text, link⟩ := by
          simpa using hb
        subst hb'
        rcases hat : a.title with _ | u
        · simp [sameNonemptyTitle, hat]
        · have hu : u ∈ st.titles := hsup a ha u hat
          have hne : ¬ u = t := by
            rintro rfl
            exact (by simpa using hc : ¬ u ∈ st.titles) hu
          simp [sameNonemptyTitle, hat, hne]
    · rw [processFile_title_dup ht hc]; exact hdis

theorem runAux_titlesSup (hash : String → String) (currentYY : Int) (keywords : List String)
    (files : List PdfFile) (st : RunState) (hsup : TitlesSup st) :
    TitlesSup (runAux hash currentYY keywords files st).1 := by
  induction files generalizing st with
  | nil => simpa [runAux]
  | cons f fs ih =>
    rcases hx : f.extracted with _ | text
    · simpa [runAux, hx]
    · simpa [runAux, hx] using ih _ (processFile_titlesSup hsup)

theorem runAux_inv (hash : String → String) (currentYY : Int) (keywords : List String)
    (files : List PdfFile) (st : RunState) (hsup : TitlesSup st)
    (hdis : titlesDistinct st.entries) :
    titlesDistinct (runAux hash currentYY keywords files st).1.entries := by
  induction files generalizing st with
  | nil => simpa [runAux]
  | cons f fs ih =>
    rcases hx : f.extracted with _ | text
    · simpa [runAux, hx]
    · simpa [runAux, hx] using
        ih _ (processFile_titlesSup hsup) (processFile_titlesDistinct hsup hdis)

theorem mainRun_eq (hash : String → String) (currentYY : Int) (keywords : List String)
    (stored : List Entry) (files : List PdfFile) :
    mainRun hash currentYY keywords stored files =
      ((runAux hash currentYY keywords files (load stored)).1,
        if (runAux hash currentYY keywords files (load stored)).2 = true
        then some (runAux hash currentYY keywords files (load stored)).1.entries
        else none) := by
  unfold mainRun
  rcases runAux hash currentYY keywords files (load stored) with ⟨st, b⟩
  cases b <;> simp

/-! ## Claim C3 (confirmed) -/

/-- C3: starting from a loaded catalog satisfying the invariant (the empty
catalog included), every catalog the pipeline produces — the in-memory one
and the saved one when the run completes — has no two records with equal
non-empty titles. -/
theorem c3_dedup_invariant (hash : String → String) (currentYY : Int)
    (keywords : List String) (stored : List Entry) (files : List PdfFile)
    (h : titlesDistinct stored) :
    titlesDistinct (mainRun hash currentYY keywords stored files).1.entries ∧
    ∀ es, (mainRun hash currentYY keywords stored files).2 = some es → titlesDistinct es := by
  have hst : titlesDistinct (load stored).entries := by rwa [load_entries]
  have hinv := runAux_inv hash currentYY keywords files (load stored)
    (load_titlesSup stored) hst
  rw [mainRun_eq]
  refine ⟨hinv, ?_⟩
  intro es hes
  rcases hb : (runAux hash currentYY keywords files (load stored)).2 with _ | _
  · rw [hb] at hes; simp at hes
  · rw [hb] at hes
    simp at hes
    rwa [← hes]

/-- C3, witness: a run over a singleton catalog and two fresh files keeps
the titles pairwise distinct. -/
theorem c3_dedup_invariant_witness :
    titlesDistinct
      (mainRun (fun s => s) 24 mainKeywords [dupEntry] [goodFile, noTitleFile]).1.entries :=
  (c3_dedup_invariant (fun s => s) 24 mainKeywords [dupEntry] [goodFile, noTitleFile]
    (by simp [titlesDistinct])).1

/-! ## Claim C7 (corrected) -/

/-- C7, counterexample.  The claim states the known-titles set always equals
the set of non-empty titles of the records in the catalog.  The source
inserts the detected title into the set (main.rs line 255) before resolving
the link (line 264): when the link resolution then fails, the set holds a
title that belongs to no record — here the set is nonempty while the
catalog is still empty. -/
theorem c7_titles_exactness_counterexample :
    (processFile (fun s => s) 24 mainKeywords (load []) badStemFile
      "RESOLUÇÃO 48\n").1.titles = ["RESOLUÇÃO 48"] ∧
    (processFile (fun s => s) 24 mainKeywords (load []) badStemFile
      "RESOLUÇÃO 48\n").1.entries = [] := by
  refine ⟨by decide, by decide⟩

/-- C7, amended: the known-titles set always contains every title present in
the catalog — it is rebuilt from the catalog on load and grows when a fresh
title is detected — but the update happens before link resolution, so after
a malformed-filename rejection it may strictly exceed the catalog's titles.
The first part states the superset at every point of a run (the state after
any prefix of the intake files); the second states the update on every
fresh detected title, link resolution notwithstanding. -/
theorem c7_titles_superset (hash : String → String) (currentYY : Int)
    (keywords : List String) (stored : List Entry) (processed : List PdfFile) :
    TitlesSup (runAux hash currentYY keywords processed (load stored)).1 ∧
    (∀ st f text t, return_title text keywords = some t →
      st.titles.contains t = false →
      t ∈ (processFile hash currentYY keywords st f text).1.titles) := by
  refine ⟨runAux_titlesSup hash currentYY keywords processed (load stored)
    (load_titlesSup stored), ?_⟩
  intro st f text t ht hc
  cases hl : get_link f.stem with
  | error msg =>
    rw [processFile_fresh_err ht hc hl]
    exact List.mem_cons_self _ _
  | ok link =>
    rw [processFile_fresh_ok ht hc hl]
    exact List.mem_cons_self _ _

/-- C7, witness for the amended theorem: the fresh title of a
malformed-filename file does enter the known-titles set. -/
theorem c7_titles_superset_witness :
    "RESOLUÇÃO 48" ∈ (processFile (fun s => s) 24 mainKeywords (load []) badStemFile
      "RESOLUÇÃO 48\n").1.titles :=
  (c7_titles_superset (fun s => s) 24 mainKeywords [] []).2 (load []) badStemFile
    "RESOLUÇÃO 48\n" "RESOLUÇÃO 48" (by decide) (by decide)

/-! ## Claim C10 (confirmed) -/

theorem runAux_extraction_failure (hash : String → String) (currentYY : Int)
    (keywords : List String) (pre : List PdfFile) (f : PdfFile) (post : List PdfFile)
    (st : RunState) (hpre : ∀ g ∈ pre, g.extracted ≠ none) (hf : f.extracted = none) :
    runAux hash currentYY keywords (pre ++ f :: post) st =
      ((runAux hash currentYY keywords pre st).1, false) := by
  induction pre generalizing st with
  | nil => simp [runAux, hf]
  | cons g gs ih =>
    rcases hx : g.extracted with _ | text
    · exact absurd hx (hpre g (List.mem_cons_self _ _))
    · simp only [List.cons_append, runAux, hx]
      exact ih _ (fun g' hg' => hpre g' (List.mem_cons_of_mem _ hg'))

/-- C10: when the text extraction of some intake file fails, `main` returns
before the end-of-run save: the catalog file is not rewritten (`none`), and
the final in-memory state is exactly the state reached after the files
preceding the failure — records accepted there live only in memory, while
the moves of their source files into the archive directory have already
happened. -/
theorem c10_abort_skips_save (hash : String → String) (currentYY : Int)
    (keywords : List String) (stored : List Entry) (pre : List PdfFile) (f : PdfFile)
    (post : List PdfFile) (hpre : ∀ g ∈ pre, g.extracted ≠ none)
    (hf : f.extracted = none) :
    mainRun hash currentYY keywords stored (pre ++ f :: post) =
      ((runAux hash currentYY keywords pre (load stored)).1, none) := by
  rw [mainRun_eq, runAux_extraction_failure hash currentYY keywords pre f post
    (load stored) hpre hf]
  simp

/-- C10, witness: one accepted file, then a failing one — the save is
skipped although the accepted record is in memory and its file was already
moved to the archive. -/
theorem c10_abort_skips_save_witness :
    mainRun (fun s => s) 24 mainKeywords [] [goodFile, failFile] =
      ((runAux (fun s => s) 24 mainKeywords [goodFile] (load [])).1, none) ∧
    (runAux (fun s => s) 24 mainKeywords [goodFile] (load [])).1.moved
      = ["123_abcKEY.pdf"] ∧
    (runAux (fun s => s) 24 mainKeywords [goodFile] (load [])).1.entries.length = 1 :=
  ⟨c10_abort_skips_save (fun s => s) 24 mainKeywords [] [goodFile] failFile []
      (by decide) rfl,
    by decide, by decide⟩

/-! ## Claim C6 (corrected) -/

theorem splitCharList_of_no_sep (l : List Char) (h : splitFirstAux l = none) :
    splitCharList '_' l = [l] := by
  induction l with
  | nil => rfl
  | cons c r ih =>
    by_cases hcu : c = '_'
    · subst hcu
      simp [splitFirstAux] at h
    · have hr : splitFirstAux r = none := by
        simp only [splitFirstAux, if_neg hcu, Option.map_eq_none'] at h
        exact h
      simp [splitCharList, hcu, ih hr]

theorem get_link_error_of_no_split (stem : Option String)
    (h : stemSplitsInTwo stem = false) :
    get_link stem = Except.error "Invalid filename format or path" := by
  rcases stem with _ | s
  · rfl
  · rcases hx : splitFirstAux s.data with _ | p
    · simp [get_link, splitCharList_of_no_sep s.data hx]
    · simp [stemSplitsInTwo, hx] at h

/-- C6, counterexample.  The claim states that every processed file whose
stem does not split into the two filename-contract parts has its record
rejected with a reported error.  The catalog-unchanged and no-move parts
hold for all such files, but when no title is detected the loop never
reaches link resolution (main.rs line 264 sits inside the title branch): a
no-title file with a malformed stem is reported as "No title found", not as
a link-resolution error. -/
theorem c6_no_error_report_counterexample :
    stemSplitsInTwo badStemNoTitleFile.stem = false ∧
    processFile (fun s => s) 24 mainKeywords (load []) badStemNoTitleFile
      "hello world\n" = (load [], Outcome.noTitle) ∧
    Outcome.noTitle ≠ Outcome.linkError := by
  refine ⟨by decide, by decide, by decide⟩

/-- C6, amended: for every processed file whose stem, split on the first
underscore, does not yield exactly two parts, no record (partial or
empty-link) is appended, the catalog is unchanged and the file is not
moved; the rejection is additionally reported as a link error whenever a
fresh (non-duplicate) title was detected, i.e. whenever link resolution is
reached at all. -/
theorem c6_malformed_stem_rejected (hash : String → String) (currentYY : Int)
    (keywords : List String) (st : RunState) (f : PdfFile) (text : String)
    (hstem : stemSplitsInTwo f.stem = false) :
    (processFile hash currentYY keywords st f text).1.entries = st.entries ∧
    (processFile hash currentYY keywords st f text).1.moved = st.moved ∧
    (∀ t, return_title text keywords = some t → st.titles.contains t = false →
      (processFile hash currentYY keywords st f text).2 = Outcome.linkError) := by
  have hl := get_link_error_of_no_split f.stem hstem
  rcases ht : return_title text keywords with _ | t
  · rw [processFile_title_none ht]
    exact ⟨rfl, rfl, fun t h => nomatch h⟩
  · rcases hc : st.titles.contains t with _ | _
    · rw [processFile_fresh_err ht hc hl]
      refine ⟨rfl, rfl, ?_⟩
      intro u hu hcu
      rfl
    · rw [processFile_title_dup ht hc]
      refine ⟨rfl, rfl, ?_⟩
      intro u hu hcu
      injection hu with h2
      subst h2
      rw [hc] at hcu
      cases hcu

/-- C6, witness for the amended theorem: a malformed-stem file with a fresh
detected title leaves the catalog and the intake directory untouched and is
reported as a link error. -/
theorem c6_malformed_stem_rejected_witness :
    (processFile (fun s => s) 24 mainKeywords (load []) badStemFile
      "RESOLUÇÃO 48\n").1.entries = [] ∧
    (processFile (fun s => s) 24 mainKeywords (load []) badStemFile
      "RESOLUÇÃO 48\n").1.moved = [] ∧
    (processFile (fun s => s) 24 mainKeywords (load []) badStemFile
      "RESOLUÇÃO 48\n").2 = Outcome.linkError := by
  have h := c6_malformed_stem_rejected (fun s => s) 24 mainKeywords (load []) badStemFile
    "RESOLUÇÃO 48\n" (by decide)
  exact ⟨h.1, h.2.1, h.2.2 "RESOLUÇÃO 48" (by decide) (by decide)⟩
